import Mathlib

/-!
# Split identity, hashing and tree assembly (catboost/libs/algo/split.h)

A shallow embedding of the value types of `split.h`: `TCtr`, `TSplitCandidate`,
`TSplitEnsemble`, `TSplitEnsembleSpec`, `UseForCalcScores`, `TSplit` and
`TSplitTree`, with their `operator==`, `GetHash`, `Save` / `Load`, the tree
mutators and the derived views.

Conventions.
* Machine integers are `Nat` / `Int`; where the C++ arithmetic can wrap
  (`ui32` addition, `int` shift) the wrap is written out with `%`.
* Collaborators whose code is outside `split.h` (`TProjection`, `MultiHash`,
  the three base hash constants of `TSplitCandidate`) are the fields of
  `THashEnv`; every function that uses them takes the environment explicitly.
-/

namespace Split

/-! ## Collaborators -/

/-- Modelled from the spec: the split-kind enum `ESplitType` is declared in
`catboost/libs/model/split.h`; the spec gives it as
`enum{FloatFeature, OneHotFeature, OnlineCtr}`. -/
inductive ESplitType where
  | FloatFeature
  | OneHotFeature
  | OnlineCtr
  deriving DecidableEq, Repr

/-- One argument of a `MultiHash(...)` call, tagged with its C++ static type
(the per-argument `THash<T>` is selected by that type). -/
inductive THashArg where
  | size_t (v : Nat)
  | int (v : Int)
  | ui8 (v : Nat)
  | ui32 (v : Nat)
  deriving DecidableEq, Repr

/-- The collaborators consumed by the hashing and equality code of `split.h`:
`TProjection::operator==`, `TProjection::GetHash`, the variadic `MultiHash`
of `util/digest/multi.h` (a deterministic function of its argument list) and
the three `static const size_t` base hashes of `TSplitCandidate`, whose values
are defined outside the header. -/
structure THashEnv (P : Type) where
  ProjectionEq : P → P → Bool
  ProjectionGetHash : P → Nat
  MultiHash : List THashArg → Nat
  FloatFeatureBaseHash : Nat
  CtrBaseHash : Nat
  OneHotFeatureBaseHash : Nat

/-- The contract on `TProjection` the hashing claims assume: projections that
compare equal have equal `GetHash()`. -/
def THashEnv.ProjectionHashConsistent {P : Type} (env : THashEnv P) : Prop :=
  ∀ p q : P, env.ProjectionEq p q = true → env.ProjectionGetHash p = env.ProjectionGetHash q

/-! ## TCtr -/

/-- `struct TCtr`: a projection and four `ui8` indices, all defaulting to 0. -/
structure TCtr (P : Type) where
  Projection : P
  CtrIdx : Nat := 0
  TargetBorderIdx : Nat := 0
  PriorIdx : Nat := 0
  BorderCount : Nat := 0

instance {P : Type} [Inhabited P] : Inhabited (TCtr P) := ⟨{ Projection := default }⟩

/-- `TCtr::operator==`: `std::tie` comparison of the five fields. -/
def TCtr.eq {P : Type} (env : THashEnv P) (a other : TCtr P) : Bool :=
  env.ProjectionEq a.Projection other.Projection
    && decide (a.CtrIdx = other.CtrIdx)
    && decide (a.TargetBorderIdx = other.TargetBorderIdx)
    && decide (a.PriorIdx = other.PriorIdx)
    && decide (a.BorderCount = other.BorderCount)

/-- `TCtr::operator!=`. -/
def TCtr.ne {P : Type} (env : THashEnv P) (a other : TCtr P) : Bool :=
  !(a.eq env other)

/-- `TCtr::GetHash`. -/
def TCtr.GetHash {P : Type} (env : THashEnv P) (a : TCtr P) : Nat :=
  env.MultiHash [.size_t (env.ProjectionGetHash a.Projection), .ui8 a.CtrIdx,
    .ui8 a.TargetBorderIdx, .ui8 a.PriorIdx, .ui8 a.BorderCount]

/-! ## TSplitCandidate -/

/-- `struct TSplitCandidate`: `Ctr`, `int FeatureIdx = -1`,
`ESplitType Type = FloatFeature` (the field is `Type_` here, `Type` being
reserved). -/
structure TSplitCandidate (P : Type) where
  Ctr : TCtr P
  FeatureIdx : Int := -1
  Type_ : ESplitType := ESplitType.FloatFeature

instance {P : Type} [Inhabited P] : Inhabited (TSplitCandidate P) := ⟨{ Ctr := default }⟩

/-- `TSplitCandidate::operator==`. -/
def TSplitCandidate.eq {P : Type} (env : THashEnv P) (a other : TSplitCandidate P) : Bool :=
  decide (a.Type_ = other.Type_) &&
    (((decide (a.Type_ = ESplitType.FloatFeature) || decide (a.Type_ = ESplitType.OneHotFeature))
        && decide (a.FeatureIdx = other.FeatureIdx))
      || (decide (a.Type_ = ESplitType.OnlineCtr) && a.Ctr.eq env other.Ctr))

/-- `TSplitCandidate::GetHash`. -/
def TSplitCandidate.GetHash {P : Type} (env : THashEnv P) (a : TSplitCandidate P) : Nat :=
  if a.Type_ = ESplitType.FloatFeature then
    env.MultiHash [.size_t env.FloatFeatureBaseHash, .int a.FeatureIdx]
  else if a.Type_ = ESplitType.OnlineCtr then
    env.MultiHash [.size_t env.CtrBaseHash, .size_t (a.Ctr.GetHash env)]
  else
    env.MultiHash [.size_t env.OneHotFeatureBaseHash, .int a.FeatureIdx]

/-! ## TSplitEnsemble -/

/-- The `ui32` sentinel `std::numeric_limits<ui32>::max()`. -/
def ui32Max : Nat := 4294967295

/-- `struct TBinarySplitsPackRef`. -/
structure TBinarySplitsPackRef where
  PackIdx : Nat := ui32Max
  deriving DecidableEq, Repr

/-- `TBinarySplitsPackRef::operator==`. -/
def TBinarySplitsPackRef.eq (a other : TBinarySplitsPackRef) : Bool :=
  decide (a.PackIdx = other.PackIdx)

/-- `struct TExclusiveFeaturesBundleRef`. -/
structure TExclusiveFeaturesBundleRef where
  BundleIdx : Nat := ui32Max
  deriving DecidableEq, Repr

/-- `TExclusiveFeaturesBundleRef::operator==`. -/
def TExclusiveFeaturesBundleRef.eq (a other : TExclusiveFeaturesBundleRef) : Bool :=
  decide (a.BundleIdx = other.BundleIdx)

/-- `enum class ESplitEnsembleType`. -/
inductive ESplitEnsembleType where
  | OneFeature
  | BinarySplits
  | ExclusiveBundle
  deriving DecidableEq, Repr

/-- `struct TSplitEnsemble`: the variant switch and the three variant members,
all four always present. -/
structure TSplitEnsemble (P : Type) where
  Type_ : ESplitEnsembleType
  SplitCandidate : TSplitCandidate P
  BinarySplitsPackRef : TBinarySplitsPackRef := {}
  ExclusiveFeaturesBundleRef : TExclusiveFeaturesBundleRef := {}

/-- `TSplitEnsemble::BinarySplitsPackHash`. -/
def TSplitEnsemble.BinarySplitsPackHash : Nat := 118223

/-- `TSplitEnsemble::ExclusiveBundleHash`. -/
def TSplitEnsemble.ExclusiveBundleHash : Nat := 981490

/-- `TSplitEnsemble::TSplitEnsemble()`. -/
def TSplitEnsemble.default {P : Type} [Inhabited P] : TSplitEnsemble P :=
  { Type_ := ESplitEnsembleType.OneFeature, SplitCandidate := Inhabited.default }

/-- `explicit TSplitEnsemble(TSplitCandidate&&)`. -/
def TSplitEnsemble.ofSplitCandidate {P : Type} (splitCandidate : TSplitCandidate P) :
    TSplitEnsemble P :=
  { Type_ := ESplitEnsembleType.OneFeature, SplitCandidate := splitCandidate }

/-- `explicit TSplitEnsemble(TBinarySplitsPackRef&&)`. -/
def TSplitEnsemble.ofBinarySplitsPackRef {P : Type} [Inhabited P]
    (binarySplitsPackRef : TBinarySplitsPackRef) : TSplitEnsemble P :=
  { Type_ := ESplitEnsembleType.BinarySplits, SplitCandidate := Inhabited.default,
    BinarySplitsPackRef := binarySplitsPackRef }

/-- `explicit TSplitEnsemble(TExclusiveFeaturesBundleRef&&)`. -/
def TSplitEnsemble.ofExclusiveFeaturesBundleRef {P : Type} [Inhabited P]
    (exclusiveFeaturesBundleRef : TExclusiveFeaturesBundleRef) : TSplitEnsemble P :=
  { Type_ := ESplitEnsembleType.ExclusiveBundle, SplitCandidate := Inhabited.default,
    ExclusiveFeaturesBundleRef := exclusiveFeaturesBundleRef }

/-- `TSplitEnsemble::operator==`: a `switch` on the left operand's `Type`. -/
def TSplitEnsemble.eq {P : Type} (env : THashEnv P) (a other : TSplitEnsemble P) : Bool :=
  match a.Type_ with
  | ESplitEnsembleType.OneFeature =>
      decide (other.Type_ = ESplitEnsembleType.OneFeature)
        && a.SplitCandidate.eq env other.SplitCandidate
  | ESplitEnsembleType.BinarySplits =>
      decide (other.Type_ = ESplitEnsembleType.BinarySplits)
        && a.BinarySplitsPackRef.eq other.BinarySplitsPackRef
  | ESplitEnsembleType.ExclusiveBundle =>
      decide (other.Type_ = ESplitEnsembleType.ExclusiveBundle)
        && a.ExclusiveFeaturesBundleRef.eq other.ExclusiveFeaturesBundleRef

/-- `TSplitEnsemble::GetHash`. -/
def TSplitEnsemble.GetHash {P : Type} (env : THashEnv P) (a : TSplitEnsemble P) : Nat :=
  match a.Type_ with
  | ESplitEnsembleType.OneFeature => a.SplitCandidate.GetHash env
  | ESplitEnsembleType.BinarySplits =>
      env.MultiHash [.size_t TSplitEnsemble.BinarySplitsPackHash,
        .ui32 a.BinarySplitsPackRef.PackIdx]
  | ESplitEnsembleType.ExclusiveBundle =>
      env.MultiHash [.size_t TSplitEnsemble.ExclusiveBundleHash,
        .ui32 a.ExclusiveFeaturesBundleRef.BundleIdx]

/-- `TSplitEnsemble::IsSplitOfType`. -/
def TSplitEnsemble.IsSplitOfType {P : Type} (a : TSplitEnsemble P) (type : ESplitType) : Bool :=
  decide (a.Type_ = ESplitEnsembleType.OneFeature) && decide (a.SplitCandidate.Type_ = type)

/-! ## UseForCalcScores -/

/-- Modelled from the spec: the feature-kind enum `EFeatureType` is declared
outside `split.h`; the spec distinguishes categorical bundle parts from
non-categorical ones. -/
inductive EFeatureType where
  | Float
  | Categorical
  deriving DecidableEq, Repr

/-- Modelled from the spec: `NCB::TBoundsInBundle`, the `ui32` index range
`[Begin, End)` a part occupies in its bundle, declared outside `split.h`. -/
structure TBoundsInBundle where
  Begin : Nat
  End : Nat
  deriving DecidableEq, Repr

/-- Modelled from the spec: the "category-range-size" of the bounds,
`End - Begin` computed in `ui32`. -/
def TBoundsInBundle.GetSize (b : TBoundsInBundle) : Nat :=
  (b.End + 2 ^ 32 - b.Begin % 2 ^ 32) % 2 ^ 32

/-- Modelled from the spec: `NCB::TExclusiveBundlePart`, one feature of an
exclusive bundle with its kind and its bounds, declared outside `split.h`. -/
structure TExclusiveBundlePart where
  FeatureType : EFeatureType
  FeatureIdx : Nat
  Bounds : TBoundsInBundle
  deriving DecidableEq, Repr

/-- `UseForCalcScores`: `Bounds.GetSize() + 1` is a `ui32` sum, compared with
the `ui32` threshold. -/
def UseForCalcScores (exclusiveBundlePart : TExclusiveBundlePart) (oneHotMaxSize : Nat) : Bool :=
  if exclusiveBundlePart.FeatureType = EFeatureType.Categorical then
    decide ((exclusiveBundlePart.Bounds.GetSize + 1) % 2 ^ 32 ≤ oneHotMaxSize)
  else
    true

/-! ## TSplit and TSplitTree -/

/-- `struct TSplit : public TSplitCandidate` with `int BinBorder = 0`. -/
structure TSplit (P : Type) extends TSplitCandidate P where
  BinBorder : Int := 0

/-- `TSplit(const TSplitCandidate& split, int border)`. -/
def TSplit.ofCandidate {P : Type} (split : TSplitCandidate P) (border : Int) : TSplit P :=
  { toTSplitCandidate := split, BinBorder := border }

/-- `struct TSplitTree`: the vector `Splits`. -/
structure TSplitTree (P : Type) where
  Splits : List (TSplit P)

/-- The value of a 32-bit two's-complement `int` holding `x` modulo `2^32`. -/
def wrapInt32 (x : Int) : Int :=
  (x + 2 ^ 31) % 2 ^ 32 - 2 ^ 31

/-- `TSplitTree::GetDepth`: `Splits.ysize()`.
Modelled from the spec: `ysize` is the vector's length (`depth = length`). -/
def TSplitTree.GetDepth {P : Type} (t : TSplitTree P) : Int :=
  (t.Splits.length : Int)

/-- `TSplitTree::GetLeafCount`: `1 << Splits.ysize()` in the 32-bit `int`
return type. For a count up to 31 the result is the shifted value as an
`int`. A count of 32 or more is not defined by C++ for a 32-bit operand; the
value here is that of the 32-bit shift instruction, which uses the count
modulo 32. -/
def TSplitTree.GetLeafCount {P : Type} (t : TSplitTree P) : Int :=
  wrapInt32 (1 * 2 ^ (t.GetDepth.toNat % 32))

/-- Rewriting the `FeatureIdx` of a candidate leaves every other field alone. -/
def TSplitCandidate.withFeatureIdx {P : Type} (a : TSplitCandidate P) (featureIdx : Int) :
    TSplitCandidate P :=
  { a with FeatureIdx := featureIdx }

/-- Rewriting the `Ctr` of a candidate leaves every other field alone. -/
def TSplitCandidate.withCtr {P : Type} (a : TSplitCandidate P) (ctr : TCtr P) :
    TSplitCandidate P :=
  { a with Ctr := ctr }

/-- `TSplit` inherits `TSplitCandidate::operator==`: the base candidates are
compared, `BinBorder` is not read. -/
def TSplit.eq {P : Type} (env : THashEnv P) (a other : TSplit P) : Bool :=
  a.toTSplitCandidate.eq env other.toTSplitCandidate

/-- `TSplit` inherits `TSplitCandidate::GetHash`. -/
def TSplit.GetHash {P : Type} (env : THashEnv P) (a : TSplit P) : Nat :=
  a.toTSplitCandidate.GetHash env

/-- Modelled from the spec: `TBinFeature` is declared in
`catboost/libs/model/split.h`; `GetBinFeatures` brace-initialises it with the
float feature index and the bin border, in that order. -/
structure TBinFeature where
  FloatFeature : Int
  SplitIdx : Int
  deriving DecidableEq, Repr

/-- Modelled from the spec: `TOneHotSplit` is declared in
`catboost/libs/model/split.h`; `GetOneHotFeatures` brace-initialises it with
the categorical feature index and the bin border, in that order. -/
structure TOneHotSplit where
  CatFeatureIdx : Int
  Value : Int
  deriving DecidableEq, Repr

/-- `TSplitTree::GetBinFeatures`: the range-for loop over `Splits`, pushing a
`TBinFeature` for each split of type `FloatFeature`. -/
def TSplitTree.GetBinFeatures {P : Type} (t : TSplitTree P) : List TBinFeature :=
  t.Splits.foldl
    (fun result split =>
      if split.Type_ = ESplitType.FloatFeature then
        result ++ [{ FloatFeature := split.FeatureIdx, SplitIdx := split.BinBorder }]
      else result)
    []

/-- `TSplitTree::GetOneHotFeatures`: the loop pushing a `TOneHotSplit` for each
split of type `OneHotFeature`. -/
def TSplitTree.GetOneHotFeatures {P : Type} (t : TSplitTree P) : List TOneHotSplit :=
  t.Splits.foldl
    (fun result split =>
      if split.Type_ = ESplitType.OneHotFeature then
        result ++ [{ CatFeatureIdx := split.FeatureIdx, Value := split.BinBorder }]
      else result)
    []

/-- `TSplitTree::GetCtrSplits`: the loop pushing `split.Ctr` for each split of
type `OnlineCtr`. -/
def TSplitTree.GetCtrSplits {P : Type} (t : TSplitTree P) : List (TCtr P) :=
  t.Splits.foldl
    (fun result split =>
      if split.Type_ = ESplitType.OnlineCtr then result ++ [split.Ctr] else result)
    []

/-- `TProjection::operator==` is reflexive. -/
def THashEnv.ProjectionEqRefl {P : Type} (env : THashEnv P) : Prop :=
  ∀ p : P, env.ProjectionEq p p = true

/-- `TProjection::operator==` is value equality. -/
def THashEnv.ProjectionEqLawful {P : Type} (env : THashEnv P) : Prop :=
  ∀ p q : P, env.ProjectionEq p q = true ↔ p = q

/-! ## TSplitEnsembleSpec -/

/-- Modelled from the spec: `NCB::TExclusiveFeaturesBundle`, the layout of one
exclusive bundle, is declared outside `split.h`; it is the sequence of the
bundled parts, empty when default-constructed. -/
structure TExclusiveFeaturesBundle where
  Parts : List TExclusiveBundlePart := []
  deriving DecidableEq, Repr

/-- Modelled from the spec: `TExclusiveFeaturesBundle::operator==`, value
equality of bundle layouts. -/
def TExclusiveFeaturesBundle.eq (a other : TExclusiveFeaturesBundle) : Bool :=
  decide (a = other)

/-- `struct TSplitEnsembleSpec`. -/
structure TSplitEnsembleSpec where
  Type_ : ESplitEnsembleType := ESplitEnsembleType.OneFeature
  OneSplitType : ESplitType := ESplitType.FloatFeature
  ExclusiveFeaturesBundle : TExclusiveFeaturesBundle := {}
  deriving DecidableEq, Repr

/-- `TSplitEnsembleSpec(const TSplitEnsemble&, TConstArrayRef<...>)`: `Type` and
`OneSplitType` are copied, and only for `ExclusiveBundle` is the bundle list
indexed. Indexing past the end of the list is undefined and gives `none`. -/
def TSplitEnsembleSpec.ofSplitEnsemble {P : Type} (splitEnsemble : TSplitEnsemble P)
    (exclusiveFeaturesBundles : List TExclusiveFeaturesBundle) : Option TSplitEnsembleSpec :=
  if splitEnsemble.Type_ = ESplitEnsembleType.ExclusiveBundle then
    match exclusiveFeaturesBundles[splitEnsemble.ExclusiveFeaturesBundleRef.BundleIdx]? with
    | some bundle =>
        some { Type_ := splitEnsemble.Type_, OneSplitType := splitEnsemble.SplitCandidate.Type_,
               ExclusiveFeaturesBundle := bundle }
    | none => none
  else
    some { Type_ := splitEnsemble.Type_, OneSplitType := splitEnsemble.SplitCandidate.Type_ }

/-- `TSplitEnsembleSpec::operator==`: a `switch` on the left operand's `Type`. -/
def TSplitEnsembleSpec.eq (a other : TSplitEnsembleSpec) : Bool :=
  match a.Type_ with
  | ESplitEnsembleType.OneFeature =>
      decide (other.Type_ = ESplitEnsembleType.OneFeature)
        && decide (a.OneSplitType = other.OneSplitType)
  | ESplitEnsembleType.BinarySplits => decide (other.Type_ = ESplitEnsembleType.BinarySplits)
  | ESplitEnsembleType.ExclusiveBundle =>
      decide (other.Type_ = ESplitEnsembleType.ExclusiveBundle)
        && a.ExclusiveFeaturesBundle.eq other.ExclusiveFeaturesBundle

/-- `TSplitEnsembleSpec::OneSplit`. -/
def TSplitEnsembleSpec.OneSplit (splitType : ESplitType) : TSplitEnsembleSpec :=
  { Type_ := ESplitEnsembleType.OneFeature, OneSplitType := splitType }

/-- `TSplitEnsembleSpec::BinarySplitsPack`. -/
def TSplitEnsembleSpec.BinarySplitsPack : TSplitEnsembleSpec :=
  { Type_ := ESplitEnsembleType.BinarySplits }

/-- `TSplitEnsembleSpec::ExclusiveFeatureBundle`: `FloatFeature` is passed as a
dummy `OneSplitType`. -/
def TSplitEnsembleSpec.ExclusiveFeatureBundle
    (exclusiveFeaturesBundle : TExclusiveFeaturesBundle) : TSplitEnsembleSpec :=
  { Type_ := ESplitEnsembleType.ExclusiveBundle, OneSplitType := ESplitType.FloatFeature,
    ExclusiveFeaturesBundle := exclusiveFeaturesBundle }

/-! ## Serialization -/

/-- Modelled from the spec: the `SAVELOAD` / `Y_SAVELOAD_DEFINE` macros and
`::SaveMany` / `::LoadMany` are declared outside `split.h`; they write and read
the listed fields one after the other, in the listed order. A stream is the
sequence of the written fields, each tagged with its static type; how a
projection is laid out in the stream belongs to `TProjection`. -/
inductive TStreamItem (P : Type) where
  | projection (p : P)
  | ui8 (v : Nat)
  | int (v : Int)
  | splitType (v : ESplitType)

/-- Reading one `TProjection` from the stream. -/
def LoadProjection {P : Type} : List (TStreamItem P) → Option (P × List (TStreamItem P))
  | TStreamItem.projection p :: rest => some (p, rest)
  | _ => none

/-- Reading one `ui8` from the stream. -/
def LoadUi8 {P : Type} : List (TStreamItem P) → Option (Nat × List (TStreamItem P))
  | TStreamItem.ui8 v :: rest => some (v, rest)
  | _ => none

/-- Reading one `int` from the stream. -/
def LoadInt {P : Type} : List (TStreamItem P) → Option (Int × List (TStreamItem P))
  | TStreamItem.int v :: rest => some (v, rest)
  | _ => none

/-- Reading one `ESplitType` from the stream. -/
def LoadSplitType {P : Type} : List (TStreamItem P) → Option (ESplitType × List (TStreamItem P))
  | TStreamItem.splitType v :: rest => some (v, rest)
  | _ => none

/-- `TCtr::Save`, from
`Y_SAVELOAD_DEFINE(Projection, CtrIdx, TargetBorderIdx, PriorIdx, BorderCount)`. -/
def TCtr.Save {P : Type} (a : TCtr P) (s : List (TStreamItem P)) : List (TStreamItem P) :=
  s ++ [TStreamItem.projection a.Projection, TStreamItem.ui8 a.CtrIdx,
    TStreamItem.ui8 a.TargetBorderIdx, TStreamItem.ui8 a.PriorIdx,
    TStreamItem.ui8 a.BorderCount]

/-- `TCtr::Load`: the five fields are read in the order they are saved. -/
def TCtr.Load {P : Type} (s : List (TStreamItem P)) : Option (TCtr P × List (TStreamItem P)) :=
  (LoadProjection s).bind fun r0 =>
  (LoadUi8 r0.2).bind fun r1 =>
  (LoadUi8 r1.2).bind fun r2 =>
  (LoadUi8 r2.2).bind fun r3 =>
  (LoadUi8 r3.2).bind fun r4 =>
  some ({ Projection := r0.1, CtrIdx := r1.1, TargetBorderIdx := r2.1, PriorIdx := r3.1,
          BorderCount := r4.1 }, r4.2)

/-- `TSplitCandidate::Save`, from `Y_SAVELOAD_DEFINE(Ctr, FeatureIdx, Type)`. -/
def TSplitCandidate.Save {P : Type} (a : TSplitCandidate P) (s : List (TStreamItem P)) :
    List (TStreamItem P) :=
  a.Ctr.Save s ++ [TStreamItem.int a.FeatureIdx, TStreamItem.splitType a.Type_]

/-- `TSplitCandidate::Load`. -/
def TSplitCandidate.Load {P : Type} (s : List (TStreamItem P)) :
    Option (TSplitCandidate P × List (TStreamItem P)) :=
  (TCtr.Load s).bind fun r0 =>
  (LoadInt r0.2).bind fun r1 =>
  (LoadSplitType r1.2).bind fun r2 =>
  some ({ Ctr := r0.1, FeatureIdx := r1.1, Type_ := r2.1 }, r2.2)

/-- `TSplit::Save`: `::SaveMany(s, static_cast<const TSplitCandidate&>(*this), BinBorder)`. -/
def TSplit.Save {P : Type} (a : TSplit P) (s : List (TStreamItem P)) : List (TStreamItem P) :=
  a.toTSplitCandidate.Save s ++ [TStreamItem.int a.BinBorder]

/-- `TSplit::Load`: `::LoadMany(s, static_cast<TSplitCandidate&>(*this), BinBorder)`. -/
def TSplit.Load {P : Type} (s : List (TStreamItem P)) :
    Option (TSplit P × List (TStreamItem P)) :=
  (TSplitCandidate.Load s).bind fun r0 =>
  (LoadInt r0.2).bind fun r1 =>
  some ({ toTSplitCandidate := r0.1, BinBorder := r1.1 }, r1.2)

/-! ## GetBucketCount -/

/-- Modelled from the spec: `NCB::TQuantizedFeaturesInfo` is declared outside
`split.h`; it is consumed as the quantization metadata "exposing per-feature
border/category counts", here the bucket count it yields for one candidate. -/
structure TQuantizedFeaturesInfo (P : Type) where
  OneFeatureBucketCount : TSplitCandidate P → Int

/-- Modelled from the spec: `GetBucketCount` is declared in `split.h` and
defined outside it. "For OneFeature it delegates to the per-feature-kind
border/category count; for BinarySplits it is always the fixed pack width"
(the configured packed-binary-feature count); "for ExclusiveBundle it is the
sum of each bundled part's bucket width". An out-of-range bundle index is a
precondition violation and gives `none`. -/
def GetBucketCount {P : Type} (splitEnsemble : TSplitEnsemble P)
    (quantizedFeaturesInfo : TQuantizedFeaturesInfo P) (packedBinaryFeaturesCount : Nat)
    (exclusiveFeaturesBundles : List TExclusiveFeaturesBundle) : Option Int :=
  match splitEnsemble.Type_ with
  | ESplitEnsembleType.OneFeature =>
      some (quantizedFeaturesInfo.OneFeatureBucketCount splitEnsemble.SplitCandidate)
  | ESplitEnsembleType.BinarySplits => some (packedBinaryFeaturesCount : Int)
  | ESplitEnsembleType.ExclusiveBundle =>
      match exclusiveFeaturesBundles[splitEnsemble.ExclusiveFeaturesBundleRef.BundleIdx]? with
      | some bundle => some ((bundle.Parts.map fun part => (part.Bounds.GetSize : Int)).sum)
      | none => none

/-- `TProjection::operator==` is symmetric. -/
def THashEnv.ProjectionEqSymm {P : Type} (env : THashEnv P) : Prop :=
  ∀ p q : P, env.ProjectionEq p q = true → env.ProjectionEq q p = true

/-- `TProjection::operator==` is transitive. -/
def THashEnv.ProjectionEqTrans {P : Type} (env : THashEnv P) : Prop :=
  ∀ p q r : P, env.ProjectionEq p q = true → env.ProjectionEq q r = true →
    env.ProjectionEq p r = true

/-! ## A concrete instance of the collaborators

Projections are natural numbers compared by value and hashed to themselves;
`MultiHash` folds the tagged arguments into one number. The instance is used
to evaluate the definitions on concrete inputs. -/

/-- The number a tagged hash argument contributes in `sampleEnv`. -/
def sampleArgHash : THashArg → Nat
  | .size_t v => 4 * v
  | .int v => 4 * v.natAbs + 1
  | .ui8 v => 4 * v + 2
  | .ui32 v => 4 * v + 3

/-- A concrete environment over `Nat` projections. -/
def sampleEnv : THashEnv Nat where
  ProjectionEq := fun p q => decide (p = q)
  ProjectionGetHash := fun p => p
  MultiHash := fun args => args.foldl (fun h a => 31 * h + sampleArgHash a) 7
  FloatFeatureBaseHash := 1001
  CtrBaseHash := 2002
  OneHotFeatureBaseHash := 3003

/-- An `OnlineCtr` candidate over `sampleEnv` with a stale `FeatureIdx`. -/
def sampleCtrCandidateA : TSplitCandidate Nat :=
  { Ctr := { Projection := 5, CtrIdx := 1, PriorIdx := 3 }, FeatureIdx := 77,
    Type_ := ESplitType.OnlineCtr }

/-- The same `Ctr` as `sampleCtrCandidateA` with another `FeatureIdx`. -/
def sampleCtrCandidateB : TSplitCandidate Nat :=
  { Ctr := { Projection := 5, CtrIdx := 1, PriorIdx := 3 }, FeatureIdx := -4,
    Type_ := ESplitType.OnlineCtr }

/-- A `FloatFeature` candidate on feature 3. -/
def sampleFloatCandidate : TSplitCandidate Nat :=
  { Ctr := { Projection := 0 }, FeatureIdx := 3, Type_ := ESplitType.FloatFeature }

/-- A `OneHotFeature` candidate on feature 3 carrying a populated `Ctr`. -/
def sampleOneHotCandidate : TSplitCandidate Nat :=
  { Ctr := { Projection := 8, BorderCount := 2 }, FeatureIdx := 3,
    Type_ := ESplitType.OneHotFeature }

/-- An `ExclusiveBundle` ensemble on bundle 4 with default inactive fields. -/
def sampleBundleEnsembleA : TSplitEnsemble Nat :=
  TSplitEnsemble.ofExclusiveFeaturesBundleRef { BundleIdx := 4 }

/-- An `ExclusiveBundle` ensemble on bundle 4 whose inactive `SplitCandidate`
and `BinarySplitsPackRef` are populated. -/
def sampleBundleEnsembleB : TSplitEnsemble Nat :=
  { Type_ := ESplitEnsembleType.ExclusiveBundle, SplitCandidate := sampleCtrCandidateA,
    BinarySplitsPackRef := { PackIdx := 12 }, ExclusiveFeaturesBundleRef := { BundleIdx := 4 } }

/-- A `BinarySplits` ensemble on pack 12 with a populated inactive candidate. -/
def samplePackEnsemble : TSplitEnsemble Nat :=
  { Type_ := ESplitEnsembleType.BinarySplits, SplitCandidate := sampleOneHotCandidate,
    BinarySplitsPackRef := { PackIdx := 12 }, ExclusiveFeaturesBundleRef := { BundleIdx := 4 } }

/-- A categorical bundle part spanning the whole `ui32` range `[0, 2^32 - 1)`. -/
def sampleWidestCategoricalPart : TExclusiveBundlePart :=
  { FeatureType := EFeatureType.Categorical, FeatureIdx := 0,
    Bounds := { Begin := 0, End := 4294967295 } }

/-- A non-categorical bundle part of range size 1000. -/
def sampleFloatPart : TExclusiveBundlePart :=
  { FeatureType := EFeatureType.Float, FeatureIdx := 2, Bounds := { Begin := 10, End := 1010 } }

/-- A three-split tree `[S0, S1, S2]` of three different kinds and borders. -/
def sampleTree : TSplitTree Nat :=
  { Splits := [TSplit.ofCandidate sampleFloatCandidate 10,
      TSplit.ofCandidate sampleCtrCandidateA 20,
      TSplit.ofCandidate sampleOneHotCandidate 30] }

/-- A two-part bundle layout. -/
def sampleBundleLayout : TExclusiveFeaturesBundle :=
  { Parts := [{ FeatureType := EFeatureType.Categorical, FeatureIdx := 1,
                Bounds := { Begin := 0, End := 4 } },
              { FeatureType := EFeatureType.Float, FeatureIdx := 2,
                Bounds := { Begin := 4, End := 9 } }] }

/-- A list of five bundle layouts whose entry 4 is `sampleBundleLayout`. -/
def sampleBundleList : List TExclusiveFeaturesBundle :=
  [{}, {}, {}, {}, sampleBundleLayout]

/-- A quantization metadata value giving every single candidate 17 buckets. -/
def sampleQuantizedFeaturesInfo : TQuantizedFeaturesInfo Nat :=
  { OneFeatureBucketCount := fun _ => 17 }

/-- Another metadata value, giving every single candidate 3 buckets. -/
def sampleOtherQuantizedFeaturesInfo : TQuantizedFeaturesInfo Nat :=
  { OneFeatureBucketCount := fun _ => 3 }

/-- A tree of 31 equal splits. -/
def sampleDeepTree : TSplitTree Nat :=
  { Splits := List.replicate 31 (TSplit.ofCandidate sampleFloatCandidate 1) }

/-- A `OneFeature` ensemble over `sampleCtrCandidateA` with populated inactive
pack and bundle references. -/
def sampleOneFeatureEnsembleA : TSplitEnsemble Nat :=
  { Type_ := ESplitEnsembleType.OneFeature, SplitCandidate := sampleCtrCandidateA,
    BinarySplitsPackRef := { PackIdx := 3 }, ExclusiveFeaturesBundleRef := { BundleIdx := 4 } }

/-- A `OneFeature` ensemble over `sampleCtrCandidateB` built by the constructor. -/
def sampleOneFeatureEnsembleB : TSplitEnsemble Nat :=
  TSplitEnsemble.ofSplitCandidate sampleCtrCandidateB

/-! # Theorems -/

/-! ## Hash / equality consistency of TCtr and TSplitCandidate -/

theorem sampleEnv_consistent : sampleEnv.ProjectionHashConsistent := by
  intro p q h
  simpa [sampleEnv] using h

/-- `TCtr::operator==` is true exactly when the projections compare equal and
the four indices coincide. -/
theorem TCtr_eq_iff {P : Type} (env : THashEnv P) (a b : TCtr P) :
    a.eq env b = true ↔
      env.ProjectionEq a.Projection b.Projection = true ∧ a.CtrIdx = b.CtrIdx ∧
        a.TargetBorderIdx = b.TargetBorderIdx ∧ a.PriorIdx = b.PriorIdx ∧
        a.BorderCount = b.BorderCount := by
  simp [TCtr.eq, and_assoc]

/-- Equal `TCtr` values hash alike when the projection contract holds. -/
theorem TCtr_GetHash_congr {P : Type} (env : THashEnv P) (hP : env.ProjectionHashConsistent)
    (a b : TCtr P) (h : a.eq env b = true) : a.GetHash env = b.GetHash env := by
  obtain ⟨h0, h1, h2, h3, h4⟩ := (TCtr_eq_iff env a b).1 h
  simp [TCtr.GetHash, hP _ _ h0, h1, h2, h3, h4]

/-- `TSplitCandidate::operator==` unfolded by the kind of the left operand. -/
theorem TSplitCandidate_eq_iff {P : Type} (env : THashEnv P) (a b : TSplitCandidate P) :
    a.eq env b = true ↔
      a.Type_ = b.Type_ ∧
        ((a.Type_ ≠ ESplitType.OnlineCtr ∧ a.FeatureIdx = b.FeatureIdx) ∨
          (a.Type_ = ESplitType.OnlineCtr ∧ a.Ctr.eq env b.Ctr = true)) := by
  cases hA : a.Type_ <;> simp [TSplitCandidate.eq, hA]

/-- Equal candidates hash alike when the projection contract holds. -/
theorem TSplitCandidate_GetHash_congr {P : Type} (env : THashEnv P)
    (hP : env.ProjectionHashConsistent) (a b : TSplitCandidate P)
    (h : a.eq env b = true) : a.GetHash env = b.GetHash env := by
  obtain ⟨hT, hR⟩ := (TSplitCandidate_eq_iff env a b).1 h
  rcases hR with ⟨hN, hF⟩ | ⟨hC, hE⟩
  · cases hA : a.Type_ <;> simp_all [TSplitCandidate.GetHash]
  · have hB : b.Type_ = ESplitType.OnlineCtr := hT ▸ hC
    simp [TSplitCandidate.GetHash, hC, hB, TCtr_GetHash_congr env hP _ _ hE]

/-- C1: for all `TSplitCandidate` values `a`, `b`, if `a == b` then
`a.GetHash() == b.GetHash()`, and equivalently different hashes imply
`!(a == b)`; `MultiHash` is a function and equal projections are assumed to
hash alike. -/
theorem TSplitCandidate_eq_implies_GetHash_eq {P : Type} (env : THashEnv P)
    (hP : env.ProjectionHashConsistent) (a b : TSplitCandidate P) :
    (a.eq env b = true → a.GetHash env = b.GetHash env) ∧
      (a.GetHash env ≠ b.GetHash env → a.eq env b = false) := by
  refine ⟨TSplitCandidate_GetHash_congr env hP a b, fun hne => ?_⟩
  cases h : a.eq env b
  · rfl
  · exact absurd (TSplitCandidate_GetHash_congr env hP a b h) hne

theorem TSplitCandidate_eq_implies_GetHash_eq_witness :
    sampleEnv.ProjectionHashConsistent ∧
      sampleCtrCandidateA.eq sampleEnv sampleCtrCandidateB = true ∧
      sampleCtrCandidateA.GetHash sampleEnv = sampleCtrCandidateB.GetHash sampleEnv :=
  ⟨sampleEnv_consistent, by decide,
    (TSplitCandidate_eq_implies_GetHash_eq sampleEnv sampleEnv_consistent
      sampleCtrCandidateA sampleCtrCandidateB).1 (by decide)⟩

/-- C2: `TSplitCandidate` equality and hash read only the active field. Two
`OnlineCtr` candidates whose `Ctr` compare equal are equal and (equal
projections hashing alike) hash alike whatever their `FeatureIdx`; two
candidates of the same kind `FloatFeature` or `OneHotFeature` with equal
`FeatureIdx` are equal and hash alike whatever their `Ctr`. Overwriting the
inactive field changes neither the comparison nor the hash. -/
theorem TSplitCandidate_eq_hash_active_field_only {P : Type} (env : THashEnv P)
    (a b : TSplitCandidate P) :
    (a.Type_ = ESplitType.OnlineCtr → b.Type_ = ESplitType.OnlineCtr →
        a.Ctr.eq env b.Ctr = true →
        a.eq env b = true ∧ (env.ProjectionHashConsistent → a.GetHash env = b.GetHash env)) ∧
      (a.Type_ = ESplitType.OnlineCtr → b.Type_ = ESplitType.OnlineCtr → a.Ctr = b.Ctr →
        a.GetHash env = b.GetHash env) ∧
      (a.Type_ ≠ ESplitType.OnlineCtr → a.Type_ = b.Type_ → a.FeatureIdx = b.FeatureIdx →
        a.eq env b = true ∧ a.GetHash env = b.GetHash env) ∧
      (a.Type_ = ESplitType.OnlineCtr → ∀ i j : Int,
        (a.withFeatureIdx i).eq env (b.withFeatureIdx j) = a.eq env b ∧
          (a.withFeatureIdx i).GetHash env = a.GetHash env) ∧
      (a.Type_ ≠ ESplitType.OnlineCtr → ∀ c d : TCtr P,
        (a.withCtr c).eq env (b.withCtr d) = a.eq env b ∧
          (a.withCtr c).GetHash env = a.GetHash env) := by
  refine ⟨?_, ?_, ?_, ?_, ?_⟩
  · intro hA hB hC
    have hE : a.eq env b = true :=
      (TSplitCandidate_eq_iff env a b).2 ⟨hA.trans hB.symm, Or.inr ⟨hA, hC⟩⟩
    exact ⟨hE, fun hP => TSplitCandidate_GetHash_congr env hP a b hE⟩
  · intro hA hB hC
    simp [TSplitCandidate.GetHash, hA, hB, hC]
  · intro hA hT hF
    refine ⟨(TSplitCandidate_eq_iff env a b).2 ⟨hT, Or.inl ⟨hA, hF⟩⟩, ?_⟩
    cases hK : a.Type_ <;> simp_all [TSplitCandidate.GetHash]
  · intro hA i j
    simp [TSplitCandidate.withFeatureIdx, TSplitCandidate.eq, TSplitCandidate.GetHash, hA]
  · intro hA c d
    cases hK : a.Type_ <;>
      simp_all [TSplitCandidate.withCtr, TSplitCandidate.eq, TSplitCandidate.GetHash]

theorem TSplitCandidate_eq_hash_active_field_only_witness :
    sampleCtrCandidateA.FeatureIdx ≠ sampleCtrCandidateB.FeatureIdx ∧
      sampleCtrCandidateA.eq sampleEnv sampleCtrCandidateB = true ∧
      sampleCtrCandidateA.GetHash sampleEnv = sampleCtrCandidateB.GetHash sampleEnv :=
  have r := (TSplitCandidate_eq_hash_active_field_only sampleEnv
      sampleCtrCandidateA sampleCtrCandidateB).1 rfl rfl (by decide)
  ⟨by decide, r.1, r.2 sampleEnv_consistent⟩

/-! ## TSplitEnsemble: equality, hash, kind test -/

/-- C3: for all `TSplitEnsemble` values `a`, `b`, `a == b` holds iff the
discriminants are equal and the payload selected by it is equal
(`SplitCandidate` under its `operator==` for `OneFeature`, `PackIdx` for
`BinarySplits`, `BundleIdx` for `ExclusiveBundle`); so two `ExclusiveBundle`
ensembles with equal `BundleIdx` are equal whatever their other two fields. -/
theorem TSplitEnsemble_eq_iff_type_and_payload {P : Type} (env : THashEnv P)
    (a b : TSplitEnsemble P) :
    (a.eq env b = true ↔
      a.Type_ = b.Type_ ∧
        (match a.Type_ with
          | ESplitEnsembleType.OneFeature => a.SplitCandidate.eq env b.SplitCandidate = true
          | ESplitEnsembleType.BinarySplits =>
              a.BinarySplitsPackRef.PackIdx = b.BinarySplitsPackRef.PackIdx
          | ESplitEnsembleType.ExclusiveBundle =>
              a.ExclusiveFeaturesBundleRef.BundleIdx = b.ExclusiveFeaturesBundleRef.BundleIdx)) ∧
      (a.Type_ = ESplitEnsembleType.ExclusiveBundle →
        b.Type_ = ESplitEnsembleType.ExclusiveBundle →
        a.ExclusiveFeaturesBundleRef.BundleIdx = b.ExclusiveFeaturesBundleRef.BundleIdx →
        a.eq env b = true) := by
  constructor
  · cases hA : a.Type_ <;>
      simp only [TSplitEnsemble.eq, hA, TBinarySplitsPackRef.eq, TExclusiveFeaturesBundleRef.eq,
        Bool.and_eq_true, decide_eq_true_eq] <;>
      constructor <;> rintro ⟨h1, h2⟩ <;> exact ⟨h1.symm, h2⟩
  · intro hA hB hI
    simp [TSplitEnsemble.eq, hA, hB, hI, TExclusiveFeaturesBundleRef.eq]

theorem TSplitEnsemble_eq_iff_type_and_payload_witness :
    sampleBundleEnsembleA.SplitCandidate.Type_ ≠ sampleBundleEnsembleB.SplitCandidate.Type_ ∧
      sampleBundleEnsembleA.BinarySplitsPackRef ≠ sampleBundleEnsembleB.BinarySplitsPackRef ∧
      sampleBundleEnsembleA.eq sampleEnv sampleBundleEnsembleB = true :=
  ⟨by decide, by decide,
    (TSplitEnsemble_eq_iff_type_and_payload sampleEnv sampleBundleEnsembleA
      sampleBundleEnsembleB).2 rfl rfl rfl⟩

/-- C4: for all `TSplitEnsemble` values `a`, `b`, if `a == b` then
`a.GetHash() == b.GetHash()`, for each of the three variants and whatever the
inactive payload fields hold (equal projections are assumed to hash alike). -/
theorem TSplitEnsemble_eq_implies_GetHash_eq {P : Type} (env : THashEnv P)
    (hP : env.ProjectionHashConsistent) (a b : TSplitEnsemble P)
    (h : a.eq env b = true) : a.GetHash env = b.GetHash env := by
  cases hA : a.Type_ <;>
    simp only [TSplitEnsemble.eq, hA, Bool.and_eq_true, decide_eq_true_eq,
      TBinarySplitsPackRef.eq, TExclusiveFeaturesBundleRef.eq] at h <;>
    obtain ⟨hB, hE⟩ := h
  · simpa [TSplitEnsemble.GetHash, hA, hB] using
      TSplitCandidate_GetHash_congr env hP _ _ hE
  · simp [TSplitEnsemble.GetHash, hA, hB, hE]
  · simp [TSplitEnsemble.GetHash, hA, hB, hE]

theorem TSplitEnsemble_eq_implies_GetHash_eq_witness :
    sampleEnv.ProjectionHashConsistent ∧
      sampleBundleEnsembleA.eq sampleEnv sampleBundleEnsembleB = true ∧
      sampleBundleEnsembleA.GetHash sampleEnv = sampleBundleEnsembleB.GetHash sampleEnv :=
  ⟨sampleEnv_consistent, by decide,
    TSplitEnsemble_eq_implies_GetHash_eq sampleEnv sampleEnv_consistent
      sampleBundleEnsembleA sampleBundleEnsembleB (by decide)⟩

/-- C5: the ensemble built from a candidate `c` by the `OneFeature`
constructor hashes to exactly `c.GetHash()`; a `BinarySplits` ensemble hashes
to `MultiHash(118223, PackIdx)` and an `ExclusiveBundle` ensemble to
`MultiHash(981490, BundleIdx)`, whatever the other two payload fields hold. -/
theorem TSplitEnsemble_GetHash_by_variant {P : Type} (env : THashEnv P)
    (c : TSplitCandidate P) (e : TSplitEnsemble P) :
    (TSplitEnsemble.ofSplitCandidate c).GetHash env = c.GetHash env ∧
      (e.Type_ = ESplitEnsembleType.OneFeature → e.GetHash env = e.SplitCandidate.GetHash env) ∧
      (e.Type_ = ESplitEnsembleType.BinarySplits →
        e.GetHash env =
          env.MultiHash [.size_t 118223, .ui32 e.BinarySplitsPackRef.PackIdx]) ∧
      (e.Type_ = ESplitEnsembleType.ExclusiveBundle →
        e.GetHash env =
          env.MultiHash [.size_t 981490, .ui32 e.ExclusiveFeaturesBundleRef.BundleIdx]) := by
  refine ⟨rfl, ?_, ?_, ?_⟩ <;> intro hT <;>
    simp [TSplitEnsemble.GetHash, hT, TSplitEnsemble.BinarySplitsPackHash,
      TSplitEnsemble.ExclusiveBundleHash]

theorem TSplitEnsemble_GetHash_by_variant_witness :
    samplePackEnsemble.GetHash sampleEnv = sampleEnv.MultiHash [.size_t 118223, .ui32 12] ∧
      (TSplitEnsemble.ofSplitCandidate sampleCtrCandidateA).GetHash sampleEnv =
        sampleCtrCandidateA.GetHash sampleEnv :=
  ⟨(TSplitEnsemble_GetHash_by_variant sampleEnv sampleCtrCandidateA samplePackEnsemble).2.2.1 rfl,
    (TSplitEnsemble_GetHash_by_variant sampleEnv sampleCtrCandidateA samplePackEnsemble).1⟩

/-- C6: for every `TSplitEnsemble e` and split kind `k`, `e.IsSplitOfType(k)`
is true iff `e.Type` is `OneFeature` and `e.SplitCandidate.Type == k`; it is
false for every `BinarySplits` and `ExclusiveBundle` ensemble, those built by
the pack and bundle constructors (default inner kind `FloatFeature`)
included, and `IsSplitOfType(FloatFeature)` is false for a `OneFeature`
ensemble wrapping a `OneHotFeature` or `OnlineCtr` candidate. -/
theorem TSplitEnsemble_IsSplitOfType_iff {P : Type} [Inhabited P] (e : TSplitEnsemble P)
    (k : ESplitType) (p : TBinarySplitsPackRef) (r : TExclusiveFeaturesBundleRef)
    (c : TSplitCandidate P) :
    (e.IsSplitOfType k = true ↔
      e.Type_ = ESplitEnsembleType.OneFeature ∧ e.SplitCandidate.Type_ = k) ∧
      (e.Type_ ≠ ESplitEnsembleType.OneFeature → e.IsSplitOfType k = false) ∧
      (TSplitEnsemble.ofBinarySplitsPackRef p : TSplitEnsemble P).SplitCandidate.Type_ =
        ESplitType.FloatFeature ∧
      (TSplitEnsemble.ofBinarySplitsPackRef p : TSplitEnsemble P).IsSplitOfType k = false ∧
      (TSplitEnsemble.ofExclusiveFeaturesBundleRef r : TSplitEnsemble P).SplitCandidate.Type_ =
        ESplitType.FloatFeature ∧
      (TSplitEnsemble.ofExclusiveFeaturesBundleRef r : TSplitEnsemble P).IsSplitOfType k = false ∧
      ((TSplitEnsemble.ofSplitCandidate c).IsSplitOfType ESplitType.FloatFeature = true ↔
        c.Type_ = ESplitType.FloatFeature) ∧
      (c.Type_ = ESplitType.OneHotFeature ∨ c.Type_ = ESplitType.OnlineCtr →
        (TSplitEnsemble.ofSplitCandidate c).IsSplitOfType ESplitType.FloatFeature = false) := by
  refine ⟨?_, ?_, rfl, ?_, rfl, ?_, ?_, ?_⟩
  · simp [TSplitEnsemble.IsSplitOfType]
  · intro hT
    simp [TSplitEnsemble.IsSplitOfType, hT]
  · simp [TSplitEnsemble.IsSplitOfType, TSplitEnsemble.ofBinarySplitsPackRef]
  · simp [TSplitEnsemble.IsSplitOfType, TSplitEnsemble.ofExclusiveFeaturesBundleRef]
  · simp [TSplitEnsemble.IsSplitOfType, TSplitEnsemble.ofSplitCandidate]
  · rintro (hT | hT) <;>
      simp [TSplitEnsemble.IsSplitOfType, TSplitEnsemble.ofSplitCandidate, hT]

theorem TSplitEnsemble_IsSplitOfType_iff_witness :
    samplePackEnsemble.IsSplitOfType ESplitType.OneHotFeature = false ∧
      (TSplitEnsemble.ofSplitCandidate sampleCtrCandidateA).IsSplitOfType
        ESplitType.FloatFeature = false :=
  ⟨(TSplitEnsemble_IsSplitOfType_iff samplePackEnsemble ESplitType.OneHotFeature {} {}
      sampleCtrCandidateA).2.1 (by decide),
    (TSplitEnsemble_IsSplitOfType_iff samplePackEnsemble ESplitType.OneHotFeature {} {}
      sampleCtrCandidateA).2.2.2.2.2.2.2 (Or.inr rfl)⟩

/-! ## UseForCalcScores -/

/-- Away from the top of the `ui32` range the categorical test is the integer
comparison `size + 1 ≤ oneHotMaxSize`. -/
theorem UseForCalcScores_categorical_below_max (part : TExclusiveBundlePart)
    (oneHotMaxSize : Nat) (hC : part.FeatureType = EFeatureType.Categorical)
    (hS : part.Bounds.GetSize + 1 < 2 ^ 32) :
    UseForCalcScores part oneHotMaxSize = true ↔ part.Bounds.GetSize + 1 ≤ oneHotMaxSize := by
  have hM : (part.Bounds.GetSize + 1) % 4294967296 = part.Bounds.GetSize + 1 :=
    Nat.mod_eq_of_lt (by omega)
  simp [UseForCalcScores, hC, hM]

/-- The two boundary examples: range size 4 against threshold 5 is accepted,
range size 5 against threshold 5 is rejected. -/
theorem UseForCalcScores_boundary_examples :
    UseForCalcScores
        { FeatureType := EFeatureType.Categorical, FeatureIdx := 0,
          Bounds := { Begin := 3, End := 7 } } 5 = true ∧
      UseForCalcScores
        { FeatureType := EFeatureType.Categorical, FeatureIdx := 0,
          Bounds := { Begin := 3, End := 8 } } 5 = false := by
  constructor <;> simp [UseForCalcScores, TBoundsInBundle.GetSize]

/-- C7: at the categorical part of range size `2^32 - 1` and threshold 0 the
`ui32` sum `GetSize() + 1` wraps to 0, so `UseForCalcScores` answers true
although `size + 1 ≤ oneHotMaxSize` is false as integers. -/
theorem UseForCalcScores_wraps_at_max_range :
    sampleWidestCategoricalPart.FeatureType = EFeatureType.Categorical ∧
      sampleWidestCategoricalPart.Bounds.GetSize = 4294967295 ∧
      UseForCalcScores sampleWidestCategoricalPart 0 = true ∧
      ¬ (sampleWidestCategoricalPart.Bounds.GetSize + 1 ≤ 0) := by
  refine ⟨rfl, ?_, ?_, ?_⟩ <;>
    simp [UseForCalcScores, sampleWidestCategoricalPart, TBoundsInBundle.GetSize]

/-- C8: for every bundle part whose feature type is not `Categorical`,
`UseForCalcScores(part, oneHotMaxSize)` is true for every bounds range and
every `oneHotMaxSize`, 0 included. -/
theorem UseForCalcScores_non_categorical (part : TExclusiveBundlePart) (oneHotMaxSize : Nat)
    (h : part.FeatureType ≠ EFeatureType.Categorical) :
    UseForCalcScores part oneHotMaxSize = true := by
  simp [UseForCalcScores, h]

theorem UseForCalcScores_non_categorical_witness :
    sampleFloatPart.FeatureType ≠ EFeatureType.Categorical ∧
      UseForCalcScores sampleFloatPart 0 = true :=
  ⟨by decide, UseForCalcScores_non_categorical sampleFloatPart 0 (by decide)⟩

/-! ## TSplitTree -/

/-- A value inside the `int` range is its own 32-bit representation. -/
theorem wrapInt32_of_range (x : Int) (h0 : -2 ^ 31 ≤ x) (h1 : x < 2 ^ 31) :
    wrapInt32 x = x := by
  unfold wrapInt32
  rw [Int.emod_eq_of_lt (by omega) (by omega)]
  omega

/-- C9: for every `TSplitTree` whose split sequence has length `n ≤ 20`,
`GetDepth()` returns `n` and `GetLeafCount()` returns `2^n`; the empty tree
has depth 0 and leaf count 1. -/
theorem TSplitTree_depth_and_leaf_count {P : Type} (t : TSplitTree P)
    (h : t.Splits.length ≤ 20) :
    t.GetDepth = (t.Splits.length : Int) ∧
      t.GetLeafCount = 2 ^ t.Splits.length ∧
      t.GetLeafCount = 2 ^ t.GetDepth.toNat ∧
      (TSplitTree.mk ([] : List (TSplit P))).GetDepth = 0 ∧
      (TSplitTree.mk ([] : List (TSplit P))).GetLeafCount = 1 := by
  have hpow : (2 : Int) ^ t.Splits.length ≤ 2 ^ 20 :=
    pow_le_pow_right₀ (by norm_num) h
  have hpos : (0 : Int) < 2 ^ t.Splits.length := by positivity
  have hL : t.GetLeafCount = 2 ^ t.Splits.length := by
    simp only [TSplitTree.GetLeafCount, TSplitTree.GetDepth, Int.toNat_ofNat, one_mul,
      Nat.mod_eq_of_lt (Nat.lt_of_le_of_lt h (by decide : 20 < 32))]
    exact wrapInt32_of_range _ (by omega) (by omega)
  refine ⟨rfl, hL, ?_, rfl, ?_⟩
  · simpa [TSplitTree.GetDepth] using hL
  · simp [TSplitTree.GetLeafCount, TSplitTree.GetDepth, wrapInt32]

theorem TSplitTree_depth_and_leaf_count_witness :
    sampleTree.Splits.length ≤ 20 ∧ sampleTree.GetDepth = 3 ∧ sampleTree.GetLeafCount = 8 :=
  ⟨by decide, (TSplitTree_depth_and_leaf_count sampleTree (by decide)).1,
    (TSplitTree_depth_and_leaf_count sampleTree (by decide)).2.1⟩

/-- A loop that pushes `g x` for the elements satisfying `p` computes the
filtered and projected list, appended to what was accumulated before. -/
theorem foldl_push_eq_filter_map {α β : Type} (p : α → Prop) [DecidablePred p] (g : α → β)
    (l : List α) (acc : List β) :
    l.foldl (fun result x => if p x then result ++ [g x] else result) acc =
      acc ++ (l.filter (fun x => decide (p x))).map g := by
  induction l generalizing acc with
  | nil => simp
  | cons x xs ih =>
    by_cases hx : p x
    · simp [List.foldl_cons, ih, hx, List.filter_cons]
    · simp [List.foldl_cons, ih, hx, List.filter_cons]

/-- C12: for every `TSplitTree t`, `GetBinFeatures()` is the list of
`(FeatureIdx, BinBorder)` of exactly the `FloatFeature` splits in their
original order, `GetOneHotFeatures()` the same for the `OneHotFeature`
splits, and `GetCtrSplits()` the in-order list of the `Ctr` fields of exactly
the `OnlineCtr` splits; the three are functions of the tree value and return
only the view, so the split sequence is not changed. -/
theorem TSplitTree_views_filter_and_project {P : Type} (t : TSplitTree P) :
    t.GetBinFeatures =
        (t.Splits.filter (fun s => decide (s.Type_ = ESplitType.FloatFeature))).map
          (fun s => { FloatFeature := s.FeatureIdx, SplitIdx := s.BinBorder }) ∧
      t.GetOneHotFeatures =
        (t.Splits.filter (fun s => decide (s.Type_ = ESplitType.OneHotFeature))).map
          (fun s => { CatFeatureIdx := s.FeatureIdx, Value := s.BinBorder }) ∧
      t.GetCtrSplits =
        (t.Splits.filter (fun s => decide (s.Type_ = ESplitType.OnlineCtr))).map
          (fun s => s.Ctr) := by
  refine ⟨?_, ?_, ?_⟩
  · simpa [TSplitTree.GetBinFeatures] using
      foldl_push_eq_filter_map (fun s : TSplit P => s.Type_ = ESplitType.FloatFeature)
        (fun s => ({ FloatFeature := s.FeatureIdx, SplitIdx := s.BinBorder } : TBinFeature))
        t.Splits []
  · simpa [TSplitTree.GetOneHotFeatures] using
      foldl_push_eq_filter_map (fun s : TSplit P => s.Type_ = ESplitType.OneHotFeature)
        (fun s => ({ CatFeatureIdx := s.FeatureIdx, Value := s.BinBorder } : TOneHotSplit))
        t.Splits []
  · simpa [TSplitTree.GetCtrSplits] using
      foldl_push_eq_filter_map (fun s : TSplit P => s.Type_ = ESplitType.OnlineCtr)
        (fun s => s.Ctr) t.Splits []

theorem TSplitTree_views_filter_and_project_witness :
    sampleTree.GetBinFeatures = [{ FloatFeature := 3, SplitIdx := 10 }] ∧
      sampleTree.GetOneHotFeatures = [{ CatFeatureIdx := 3, Value := 30 }] ∧
      sampleTree.GetCtrSplits.length = 1 := by
  have w := TSplitTree_views_filter_and_project sampleTree
  refine ⟨by rw [w.1]; rfl, by rw [w.2.1]; rfl, by rw [w.2.2]; rfl⟩

/-! ## TSplit and TCtr identity -/

/-- C13: for every `TSplitCandidate c` and borders `b1`, `b2`, the splits
`TSplit(c, b1)` and `TSplit(c, b2)` have equal `GetHash()` and compare under
`operator==` exactly as `c` compares with itself, hence equal (for an
`OnlineCtr` candidate by reflexivity of `TProjection` equality), also when
`b1 != b2`; each split still carries its own border. -/
theorem TSplit_eq_hash_ignore_BinBorder {P : Type} (env : THashEnv P) (c : TSplitCandidate P)
    (b1 b2 : Int) :
    (TSplit.ofCandidate c b1).GetHash env = (TSplit.ofCandidate c b2).GetHash env ∧
      (TSplit.ofCandidate c b1).GetHash env = c.GetHash env ∧
      (TSplit.ofCandidate c b1).BinBorder = b1 ∧
      (TSplit.ofCandidate c b2).BinBorder = b2 ∧
      (TSplit.ofCandidate c b1).eq env (TSplit.ofCandidate c b2) = c.eq env c ∧
      (c.Type_ ≠ ESplitType.OnlineCtr →
        (TSplit.ofCandidate c b1).eq env (TSplit.ofCandidate c b2) = true) ∧
      (env.ProjectionEqRefl →
        (TSplit.ofCandidate c b1).eq env (TSplit.ofCandidate c b2) = true) := by
  refine ⟨rfl, rfl, rfl, rfl, rfl, ?_, ?_⟩
  · intro hT
    exact (TSplitCandidate_eq_iff env c c).2 ⟨rfl, Or.inl ⟨hT, rfl⟩⟩
  · intro hR
    cases hT : c.Type_ <;>
      simp [TSplit.eq, TSplit.ofCandidate, TSplitCandidate.eq, TCtr.eq, hT, hR c.Ctr.Projection]

theorem TSplit_eq_hash_ignore_BinBorder_witness :
    (TSplit.ofCandidate sampleCtrCandidateA 1).BinBorder ≠
        (TSplit.ofCandidate sampleCtrCandidateA 2).BinBorder ∧
      (TSplit.ofCandidate sampleCtrCandidateA 1).eq sampleEnv
        (TSplit.ofCandidate sampleCtrCandidateA 2) = true ∧
      (TSplit.ofCandidate sampleCtrCandidateA 1).GetHash sampleEnv =
        (TSplit.ofCandidate sampleCtrCandidateA 2).GetHash sampleEnv :=
  ⟨by decide,
    (TSplit_eq_hash_ignore_BinBorder sampleEnv sampleCtrCandidateA 1 2).2.2.2.2.2.2
      (fun p => by simp [sampleEnv]),
    (TSplit_eq_hash_ignore_BinBorder sampleEnv sampleCtrCandidateA 1 2).1⟩

/-- C14: for all `TCtr` values `a`, `b`, `a == b` holds iff the five fields
are pairwise equal (`Projection` under its own `operator==`, which is `=`
when that operator is value equality), and `a != b` is exactly the negation
of `a == b`. -/
theorem TCtr_eq_iff_five_fields_and_ne {P : Type} (env : THashEnv P) (a b : TCtr P) :
    (a.eq env b = true ↔
        env.ProjectionEq a.Projection b.Projection = true ∧ a.CtrIdx = b.CtrIdx ∧
          a.TargetBorderIdx = b.TargetBorderIdx ∧ a.PriorIdx = b.PriorIdx ∧
          a.BorderCount = b.BorderCount) ∧
      a.ne env b = !(a.eq env b) ∧
      (a.ne env b = true ↔ ¬ (a.eq env b = true)) ∧
      (env.ProjectionEqLawful → (a.eq env b = true ↔ a = b)) := by
  refine ⟨TCtr_eq_iff env a b, rfl, ?_, ?_⟩
  · simp [TCtr.ne]
  · intro hL
    rw [TCtr_eq_iff, hL]
    cases a
    cases b
    simp

theorem TCtr_eq_iff_five_fields_and_ne_witness :
    TCtr.eq sampleEnv { Projection := 5, CtrIdx := 1 } { Projection := 5, CtrIdx := 2 } = false ∧
      TCtr.ne sampleEnv { Projection := 5, CtrIdx := 1 } { Projection := 5, CtrIdx := 2 } = true :=
  have w := TCtr_eq_iff_five_fields_and_ne sampleEnv
    { Projection := 5, CtrIdx := 1 } { Projection := 5, CtrIdx := 2 }
  ⟨by decide, w.2.2.1.2 (by decide)⟩

/-! ## TSplitEnsembleSpec and the TSplitEnsemble constructors -/

/-- C15: building a `TSplitEnsembleSpec` from an ensemble `e` and a bundle
list `L` copies `Type` and `OneSplitType = e.SplitCandidate.Type`; for
`ExclusiveBundle` with `BundleIdx < |L|` the layout is `L[BundleIdx]`; for
`OneFeature` and `BinarySplits` the list is not indexed, so the result is
defined for every `L` (the empty one too) and every `BundleIdx` (the sentinel
`2^32-1` too) and carries the default-constructed layout. -/
theorem TSplitEnsembleSpec_ofSplitEnsemble_fields {P : Type} (e : TSplitEnsemble P)
    (L : List TExclusiveFeaturesBundle) :
    (∀ spec : TSplitEnsembleSpec, TSplitEnsembleSpec.ofSplitEnsemble e L = some spec →
        spec.Type_ = e.Type_ ∧ spec.OneSplitType = e.SplitCandidate.Type_) ∧
      (e.Type_ = ESplitEnsembleType.ExclusiveBundle →
        ∀ h : e.ExclusiveFeaturesBundleRef.BundleIdx < L.length,
          TSplitEnsembleSpec.ofSplitEnsemble e L =
            some { Type_ := ESplitEnsembleType.ExclusiveBundle,
                   OneSplitType := e.SplitCandidate.Type_,
                   ExclusiveFeaturesBundle :=
                     L.get ⟨e.ExclusiveFeaturesBundleRef.BundleIdx, h⟩ }) ∧
      (e.Type_ ≠ ESplitEnsembleType.ExclusiveBundle →
        TSplitEnsembleSpec.ofSplitEnsemble e L =
            some { Type_ := e.Type_, OneSplitType := e.SplitCandidate.Type_,
                   ExclusiveFeaturesBundle := {} } ∧
          TSplitEnsembleSpec.ofSplitEnsemble e [] = TSplitEnsembleSpec.ofSplitEnsemble e L ∧
          TSplitEnsembleSpec.ofSplitEnsemble
              { e with ExclusiveFeaturesBundleRef := { BundleIdx := ui32Max } } L =
            TSplitEnsembleSpec.ofSplitEnsemble e L) := by
  refine ⟨?_, ?_, ?_⟩
  · intro spec hS
    unfold TSplitEnsembleSpec.ofSplitEnsemble at hS
    split at hS
    · split at hS
      · cases hS; exact ⟨rfl, rfl⟩
      · cases hS
    · cases hS; exact ⟨rfl, rfl⟩
  · intro hT h
    simp [TSplitEnsembleSpec.ofSplitEnsemble, hT, List.getElem?_eq_getElem h]
  · intro hT
    simp [TSplitEnsembleSpec.ofSplitEnsemble, hT]

theorem TSplitEnsembleSpec_ofSplitEnsemble_fields_witness :
    TSplitEnsembleSpec.ofSplitEnsemble sampleBundleEnsembleB sampleBundleList =
        some { Type_ := ESplitEnsembleType.ExclusiveBundle,
               OneSplitType := ESplitType.OnlineCtr,
               ExclusiveFeaturesBundle := sampleBundleLayout } ∧
      TSplitEnsembleSpec.ofSplitEnsemble samplePackEnsemble [] =
        some { Type_ := ESplitEnsembleType.BinarySplits,
               OneSplitType := ESplitType.OneHotFeature,
               ExclusiveFeaturesBundle := {} } :=
  ⟨(TSplitEnsembleSpec_ofSplitEnsemble_fields sampleBundleEnsembleB sampleBundleList).2.1 rfl
      (by decide),
    ((TSplitEnsembleSpec_ofSplitEnsemble_fields samplePackEnsemble []).2.2 (by decide)).1⟩

/-- C16: `TSplitEnsembleSpec` equality reads only the fields of the active
variant: two `OneFeature` specs are equal iff their `OneSplitType` is equal,
any two `BinarySplits` specs are equal, two `ExclusiveBundle` specs are equal
iff their bundle layouts are equal, and specs of different `Type` are never
equal. -/
theorem TSplitEnsembleSpec_eq_active_fields (a b : TSplitEnsembleSpec) :
    (a.Type_ = ESplitEnsembleType.OneFeature → b.Type_ = ESplitEnsembleType.OneFeature →
        (a.eq b = true ↔ a.OneSplitType = b.OneSplitType)) ∧
      (a.Type_ = ESplitEnsembleType.BinarySplits → b.Type_ = ESplitEnsembleType.BinarySplits →
        a.eq b = true) ∧
      (a.Type_ = ESplitEnsembleType.ExclusiveBundle →
        b.Type_ = ESplitEnsembleType.ExclusiveBundle →
        (a.eq b = true ↔ a.ExclusiveFeaturesBundle = b.ExclusiveFeaturesBundle)) ∧
      (a.Type_ ≠ b.Type_ → a.eq b = false) ∧
      (∀ k1 k2 : ESplitType,
        (TSplitEnsembleSpec.OneSplit k1).eq (TSplitEnsembleSpec.OneSplit k2) = true ↔ k1 = k2) ∧
      TSplitEnsembleSpec.BinarySplitsPack.eq TSplitEnsembleSpec.BinarySplitsPack = true ∧
      (∀ x y : TExclusiveFeaturesBundle,
        (TSplitEnsembleSpec.ExclusiveFeatureBundle x).eq
            (TSplitEnsembleSpec.ExclusiveFeatureBundle y) = true ↔ x = y) := by
  refine ⟨?_, ?_, ?_, ?_, ?_, ?_, ?_⟩
  · intro hA hB
    simp [TSplitEnsembleSpec.eq, hA, hB]
  · intro hA hB
    simp [TSplitEnsembleSpec.eq, hA, hB]
  · intro hA hB
    simp [TSplitEnsembleSpec.eq, hA, hB, TExclusiveFeaturesBundle.eq]
  · intro hN
    cases hA : a.Type_ <;> cases hB : b.Type_ <;>
      simp_all [TSplitEnsembleSpec.eq]
  · intro k1 k2
    simp [TSplitEnsembleSpec.eq, TSplitEnsembleSpec.OneSplit]
  · simp [TSplitEnsembleSpec.eq, TSplitEnsembleSpec.BinarySplitsPack]
  · intro x y
    simp [TSplitEnsembleSpec.eq, TSplitEnsembleSpec.ExclusiveFeatureBundle,
      TExclusiveFeaturesBundle.eq]

theorem TSplitEnsembleSpec_eq_active_fields_witness :
    TSplitEnsembleSpec.eq
        { Type_ := ESplitEnsembleType.BinarySplits, OneSplitType := ESplitType.OnlineCtr,
          ExclusiveFeaturesBundle := sampleBundleLayout }
        { Type_ := ESplitEnsembleType.BinarySplits, OneSplitType := ESplitType.FloatFeature,
          ExclusiveFeaturesBundle := {} } = true ∧
      TSplitEnsembleSpec.eq
        (TSplitEnsembleSpec.OneSplit ESplitType.FloatFeature)
        TSplitEnsembleSpec.BinarySplitsPack = false :=
  ⟨(TSplitEnsembleSpec_eq_active_fields _ _).2.1 rfl rfl,
    (TSplitEnsembleSpec_eq_active_fields _ _).2.2.2.1 (by decide)⟩

/-- C17: each of the three `TSplitEnsemble` constructors sets one discriminant
and leaves the other payloads at their defaults: from a candidate `c`, `Type`
is `OneFeature`, `SplitCandidate = c` and `PackIdx = BundleIdx = 2^32-1`; from
a pack reference `p`, `Type` is `BinarySplits`, `PackIdx = p.PackIdx`,
`BundleIdx = 2^32-1` and the candidate is the default one (`FeatureIdx` -1,
type `FloatFeature`); from a bundle reference `r`, `Type` is
`ExclusiveBundle`, `BundleIdx = r.BundleIdx`, `PackIdx = 2^32-1` and the
candidate is the default one. -/
theorem TSplitEnsemble_constructors_set_one_variant {P : Type} [Inhabited P]
    (c : TSplitCandidate P) (p : TBinarySplitsPackRef) (r : TExclusiveFeaturesBundleRef) :
    ((TSplitEnsemble.ofSplitCandidate c).Type_ = ESplitEnsembleType.OneFeature ∧
        (TSplitEnsemble.ofSplitCandidate c).SplitCandidate = c ∧
        (TSplitEnsemble.ofSplitCandidate c).BinarySplitsPackRef.PackIdx = 2 ^ 32 - 1 ∧
        (TSplitEnsemble.ofSplitCandidate c).ExclusiveFeaturesBundleRef.BundleIdx = 2 ^ 32 - 1) ∧
      ((TSplitEnsemble.ofBinarySplitsPackRef p : TSplitEnsemble P).Type_ =
          ESplitEnsembleType.BinarySplits ∧
        (TSplitEnsemble.ofBinarySplitsPackRef p : TSplitEnsemble P).BinarySplitsPackRef.PackIdx =
          p.PackIdx ∧
        (TSplitEnsemble.ofBinarySplitsPackRef p :
            TSplitEnsemble P).ExclusiveFeaturesBundleRef.BundleIdx = 2 ^ 32 - 1 ∧
        (TSplitEnsemble.ofBinarySplitsPackRef p : TSplitEnsemble P).SplitCandidate.FeatureIdx =
          -1 ∧
        (TSplitEnsemble.ofBinarySplitsPackRef p : TSplitEnsemble P).SplitCandidate.Type_ =
          ESplitType.FloatFeature ∧
        (TSplitEnsemble.ofBinarySplitsPackRef p : TSplitEnsemble P).SplitCandidate.Ctr =
          { Projection := default }) ∧
      ((TSplitEnsemble.ofExclusiveFeaturesBundleRef r : TSplitEnsemble P).Type_ =
          ESplitEnsembleType.ExclusiveBundle ∧
        (TSplitEnsemble.ofExclusiveFeaturesBundleRef r :
            TSplitEnsemble P).ExclusiveFeaturesBundleRef.BundleIdx = r.BundleIdx ∧
        (TSplitEnsemble.ofExclusiveFeaturesBundleRef r :
            TSplitEnsemble P).BinarySplitsPackRef.PackIdx = 2 ^ 32 - 1 ∧
        (TSplitEnsemble.ofExclusiveFeaturesBundleRef r :
            TSplitEnsemble P).SplitCandidate.FeatureIdx = -1 ∧
        (TSplitEnsemble.ofExclusiveFeaturesBundleRef r : TSplitEnsemble P).SplitCandidate.Type_ =
          ESplitType.FloatFeature ∧
        (TSplitEnsemble.ofExclusiveFeaturesBundleRef r : TSplitEnsemble P).SplitCandidate.Ctr =
          { Projection := default }) := by
  refine ⟨⟨rfl, rfl, ?_, ?_⟩, ⟨rfl, rfl, ?_, rfl, rfl, rfl⟩, ⟨rfl, rfl, ?_, rfl, rfl, rfl⟩⟩ <;>
    simp [TSplitEnsemble.ofSplitCandidate, TSplitEnsemble.ofBinarySplitsPackRef,
      TSplitEnsemble.ofExclusiveFeaturesBundleRef, ui32Max]

/-! ## Serialization round trip -/

/-- Loading what `TCtr::Save` wrote gives the value back and leaves the rest
of the stream. -/
theorem TCtr_Load_Save {P : Type} (a : TCtr P) (rest : List (TStreamItem P)) :
    TCtr.Load (a.Save [] ++ rest) = some (a, rest) := by
  simp [TCtr.Load, TCtr.Save, LoadProjection, LoadUi8]

/-- Loading what `TSplitCandidate::Save` wrote gives the value back. -/
theorem TSplitCandidate_Load_Save {P : Type} (a : TSplitCandidate P)
    (rest : List (TStreamItem P)) :
    TSplitCandidate.Load (a.Save [] ++ rest) = some (a, rest) := by
  have h := TCtr_Load_Save a.Ctr
    (TStreamItem.int a.FeatureIdx :: TStreamItem.splitType a.Type_ :: rest)
  simp only [TSplitCandidate.Load, TSplitCandidate.Save, List.append_assoc, List.cons_append,
    List.nil_append, h, Option.some_bind, Option.bind_eq_bind, LoadInt, LoadSplitType]

/-- C19: for every `TSplit s`, `Save` writes the `TSplitCandidate` fields
(`Ctr`, `FeatureIdx`, `Type`, in that order) followed by `BinBorder`, and
`Load` applied to that output reads the same fields in the same order and
yields a split whose `Ctr`, `FeatureIdx`, `Type` and `BinBorder` are those of
`s`, which therefore compares with `s` as `s` does with itself. -/
theorem TSplit_Save_Load_round_trip {P : Type} (env : THashEnv P) (s : TSplit P)
    (out rest : List (TStreamItem P)) :
    s.Save out =
        out ++ [TStreamItem.projection s.Ctr.Projection, TStreamItem.ui8 s.Ctr.CtrIdx,
          TStreamItem.ui8 s.Ctr.TargetBorderIdx, TStreamItem.ui8 s.Ctr.PriorIdx,
          TStreamItem.ui8 s.Ctr.BorderCount, TStreamItem.int s.FeatureIdx,
          TStreamItem.splitType s.Type_, TStreamItem.int s.BinBorder] ∧
      s.Save out = s.toTSplitCandidate.Save out ++ [TStreamItem.int s.BinBorder] ∧
      TSplit.Load (s.Save [] ++ rest) = some (s, rest) ∧
      (∀ r : TSplit P, ∀ rest2 : List (TStreamItem P),
        TSplit.Load (s.Save [] ++ rest) = some (r, rest2) →
          r.Ctr = s.Ctr ∧ r.FeatureIdx = s.FeatureIdx ∧ r.Type_ = s.Type_ ∧
            r.BinBorder = s.BinBorder ∧ rest2 = rest ∧ r.eq env s = s.eq env s) := by
  have hL : TSplit.Load (s.Save [] ++ rest) = some (s, rest) := by
    have h := TSplitCandidate_Load_Save s.toTSplitCandidate (TStreamItem.int s.BinBorder :: rest)
    simp only [TSplit.Load, TSplit.Save, List.append_assoc, List.cons_append, List.nil_append,
      h, Option.some_bind, Option.bind_eq_bind, LoadInt]
  refine ⟨?_, rfl, hL, ?_⟩
  · simp [TSplit.Save, TSplitCandidate.Save, TCtr.Save]
  · intro r rest2 hr
    rw [hL] at hr
    cases hr
    exact ⟨rfl, rfl, rfl, rfl, rfl, rfl⟩

theorem TSplit_Save_Load_round_trip_witness :
    TSplit.Load ((TSplit.ofCandidate sampleCtrCandidateA 20).Save [] ++ [TStreamItem.int 5]) =
      some (TSplit.ofCandidate sampleCtrCandidateA 20, [TStreamItem.int 5]) :=
  (TSplit_Save_Load_round_trip sampleEnv (TSplit.ofCandidate sampleCtrCandidateA 20) []
    [TStreamItem.int 5]).2.2.1

/-! ## GetBucketCount -/

/-- C20: for every `TSplitEnsemble` of type `BinarySplits`,
`GetBucketCount(ensemble, quantizedFeaturesInfo, packedBinaryFeaturesCount,
bundles)` returns the configured packed-binary-feature count, whatever
`quantizedFeaturesInfo` and `bundles` contain. -/
theorem GetBucketCount_BinarySplits {P : Type} (splitEnsemble : TSplitEnsemble P)
    (h : splitEnsemble.Type_ = ESplitEnsembleType.BinarySplits)
    (packedBinaryFeaturesCount : Nat)
    (info1 info2 : TQuantizedFeaturesInfo P) (bundles1 bundles2 : List TExclusiveFeaturesBundle) :
    GetBucketCount splitEnsemble info1 packedBinaryFeaturesCount bundles1 =
        some (packedBinaryFeaturesCount : Int) ∧
      GetBucketCount splitEnsemble info1 packedBinaryFeaturesCount bundles1 =
        GetBucketCount splitEnsemble info2 packedBinaryFeaturesCount bundles2 := by
  simp [GetBucketCount, h]

theorem GetBucketCount_BinarySplits_witness :
    samplePackEnsemble.Type_ = ESplitEnsembleType.BinarySplits ∧
      GetBucketCount samplePackEnsemble sampleQuantizedFeaturesInfo 8 sampleBundleList =
        some 8 ∧
      GetBucketCount samplePackEnsemble sampleQuantizedFeaturesInfo 8 sampleBundleList =
        GetBucketCount samplePackEnsemble sampleOtherQuantizedFeaturesInfo 8 [] :=
  ⟨rfl,
    (GetBucketCount_BinarySplits samplePackEnsemble rfl 8 sampleQuantizedFeaturesInfo
      sampleOtherQuantizedFeaturesInfo sampleBundleList []).1,
    (GetBucketCount_BinarySplits samplePackEnsemble rfl 8 sampleQuantizedFeaturesInfo
      sampleOtherQuantizedFeaturesInfo sampleBundleList []).2⟩

/-! ## Leaf count in the `int` range -/

/-- C21, as stated, fails at 31 splits: `1 << 31` does not fit the 32-bit
`int`, and `GetLeafCount()` is `-2^31` instead of `2^31`. -/
theorem TSplitTree_GetLeafCount_overflows_at_31 :
    sampleDeepTree.Splits.length = 31 ∧
      sampleDeepTree.GetLeafCount = -2147483648 ∧
      sampleDeepTree.GetLeafCount ≠ 2 ^ sampleDeepTree.Splits.length := by
  refine ⟨?_, ?_, ?_⟩ <;>
    simp [sampleDeepTree, TSplitTree.GetLeafCount, TSplitTree.GetDepth, wrapInt32]

/-- C21, amended: a `TSplitTree` with `n ≤ 30` splits has `GetLeafCount()`
equal to `2^n`; with 31 splits `2^31` is outside the 32-bit `int` and
`GetLeafCount()` is `-2^31`, which is not `2^n`. -/
theorem TSplitTree_GetLeafCount_int_range {P : Type} (t : TSplitTree P) :
    (t.Splits.length ≤ 30 → t.GetLeafCount = 2 ^ t.Splits.length) ∧
      (t.Splits.length = 31 →
        t.GetLeafCount = -2 ^ 31 ∧ t.GetLeafCount ≠ 2 ^ t.Splits.length) := by
  have hG : t.Splits.length < 32 → t.GetLeafCount = wrapInt32 (2 ^ t.Splits.length) := by
    intro h
    simp [TSplitTree.GetLeafCount, TSplitTree.GetDepth, Nat.mod_eq_of_lt h]
  refine ⟨fun h => ?_, fun h => ?_⟩
  · have hpow : (2 : Int) ^ t.Splits.length ≤ 2 ^ 30 := pow_le_pow_right₀ (by norm_num) h
    have hpos : (0 : Int) < 2 ^ t.Splits.length := by positivity
    rw [hG (by omega)]
    exact wrapInt32_of_range _ (by omega) (by omega)
  · have hV : t.GetLeafCount = -2 ^ 31 := by
      rw [hG (by omega), h]
      simp [wrapInt32]
    refine ⟨hV, ?_⟩
    rw [hV, h]
    norm_num

theorem TSplitTree_GetLeafCount_int_range_witness :
    sampleTree.Splits.length ≤ 30 ∧ sampleTree.GetLeafCount = 2 ^ 3 ∧
      sampleDeepTree.GetLeafCount = -2 ^ 31 :=
  ⟨by decide, (TSplitTree_GetLeafCount_int_range sampleTree).1 (by decide),
    ((TSplitTree_GetLeafCount_int_range sampleDeepTree).2 (by simp [sampleDeepTree])).1⟩

/-! ## AddSplit followed by DeleteSplit -/

theorem sampleEnv_ProjectionEq_equivalence :
    sampleEnv.ProjectionEqRefl ∧ sampleEnv.ProjectionEqSymm ∧ sampleEnv.ProjectionEqTrans := by
  refine ⟨fun p => ?_, fun p q h => ?_, fun p q r h1 h2 => ?_⟩
  · simp [sampleEnv]
  · simp only [sampleEnv, decide_eq_true_eq] at h ⊢
    exact h.symm
  · simp only [sampleEnv, decide_eq_true_eq] at h1 h2 ⊢
    exact h1.trans h2

/-- `TCtr::operator==` is reflexive, symmetric and transitive when the
projection equality is. -/
theorem TCtr_eq_equivalence {P : Type} (env : THashEnv P) (hR : env.ProjectionEqRefl)
    (hS : env.ProjectionEqSymm) (hT : env.ProjectionEqTrans) (a b c : TCtr P) :
    a.eq env a = true ∧ (a.eq env b = true → b.eq env a = true) ∧
      (a.eq env b = true → b.eq env c = true → a.eq env c = true) := by
  refine ⟨?_, fun h => ?_, fun h1 h2 => ?_⟩
  · exact (TCtr_eq_iff env a a).2 ⟨hR _, rfl, rfl, rfl, rfl⟩
  · obtain ⟨h0, h1, h2, h3, h4⟩ := (TCtr_eq_iff env a b).1 h
    exact (TCtr_eq_iff env b a).2 ⟨hS _ _ h0, h1.symm, h2.symm, h3.symm, h4.symm⟩
  · obtain ⟨p0, p1, p2, p3, p4⟩ := (TCtr_eq_iff env a b).1 h1
    obtain ⟨q0, q1, q2, q3, q4⟩ := (TCtr_eq_iff env b c).1 h2
    exact (TCtr_eq_iff env a c).2
      ⟨hT _ _ _ p0 q0, p1.trans q1, p2.trans q2, p3.trans q3, p4.trans q4⟩

/-- `TSplitCandidate::operator==` is reflexive, symmetric and transitive when
the projection equality is. -/
theorem TSplitCandidate_eq_equivalence {P : Type} (env : THashEnv P)
    (hR : env.ProjectionEqRefl) (hS : env.ProjectionEqSymm) (hT : env.ProjectionEqTrans)
    (a b c : TSplitCandidate P) :
    a.eq env a = true ∧ (a.eq env b = true → b.eq env a = true) ∧
      (a.eq env b = true → b.eq env c = true → a.eq env c = true) := by
  refine ⟨?_, fun h => ?_, fun h1 h2 => ?_⟩
  · refine (TSplitCandidate_eq_iff env a a).2 ⟨rfl, ?_⟩
    by_cases hK : a.Type_ = ESplitType.OnlineCtr
    · exact Or.inr ⟨hK, (TCtr_eq_equivalence env hR hS hT a.Ctr a.Ctr a.Ctr).1⟩
    · exact Or.inl ⟨hK, rfl⟩
  · obtain ⟨hTy, hP⟩ := (TSplitCandidate_eq_iff env a b).1 h
    refine (TSplitCandidate_eq_iff env b a).2 ⟨hTy.symm, ?_⟩
    rcases hP with ⟨hN, hF⟩ | ⟨hK, hC⟩
    · exact Or.inl ⟨hTy ▸ hN, hF.symm⟩
    · exact Or.inr ⟨hTy ▸ hK, (TCtr_eq_equivalence env hR hS hT a.Ctr b.Ctr a.Ctr).2.1 hC⟩
  · obtain ⟨hTy1, hP1⟩ := (TSplitCandidate_eq_iff env a b).1 h1
    obtain ⟨hTy2, hP2⟩ := (TSplitCandidate_eq_iff env b c).1 h2
    refine (TSplitCandidate_eq_iff env a c).2 ⟨hTy1.trans hTy2, ?_⟩
    rcases hP1 with ⟨hN, hF⟩ | ⟨hK, hC⟩
    · rcases hP2 with ⟨_, hF2⟩ | ⟨hK2, _⟩
      · exact Or.inl ⟨hN, hF.trans hF2⟩
      · exact absurd (hTy1.trans hK2) hN
    · rcases hP2 with ⟨hN2, _⟩ | ⟨_, hC2⟩
      · exact absurd (hTy1.symm.trans hK) hN2
      · exact Or.inr
          ⟨hK, (TCtr_eq_equivalence env hR hS hT a.Ctr b.Ctr c.Ctr).2.2 hC hC2⟩

/-- C22: `TSplitEnsemble::operator==` is an equivalence relation, given that
`TProjection` equality is one: `a == a` for every `a`, `a == b` implies
`b == a` (although the switch dispatches on the left operand's `Type` only),
and `a == b` with `b == c` implies `a == c`. -/
theorem TSplitEnsemble_eq_is_equivalence {P : Type} (env : THashEnv P)
    (hR : env.ProjectionEqRefl) (hS : env.ProjectionEqSymm) (hT : env.ProjectionEqTrans)
    (a b c : TSplitEnsemble P) :
    a.eq env a = true ∧ (a.eq env b = true → b.eq env a = true) ∧
      (a.eq env b = true → b.eq env c = true → a.eq env c = true) := by
  have hC := TSplitCandidate_eq_equivalence env hR hS hT
  refine ⟨?_, fun h => ?_, fun h1 h2 => ?_⟩
  · cases hA : a.Type_ <;>
      simp [TSplitEnsemble.eq, hA, TBinarySplitsPackRef.eq, TExclusiveFeaturesBundleRef.eq,
        (hC a.SplitCandidate a.SplitCandidate a.SplitCandidate).1]
  · cases hA : a.Type_ <;>
      simp only [TSplitEnsemble.eq, hA, Bool.and_eq_true, decide_eq_true_eq,
        TBinarySplitsPackRef.eq, TExclusiveFeaturesBundleRef.eq] at h <;>
      obtain ⟨hB, hE⟩ := h
    · simp [TSplitEnsemble.eq, hA, hB,
        (hC a.SplitCandidate b.SplitCandidate a.SplitCandidate).2.1 hE]
    · simp [TSplitEnsemble.eq, hA, hB, hE, TBinarySplitsPackRef.eq]
    · simp [TSplitEnsemble.eq, hA, hB, hE, TExclusiveFeaturesBundleRef.eq]
  · cases hA : a.Type_ <;>
      simp only [TSplitEnsemble.eq, hA, Bool.and_eq_true, decide_eq_true_eq,
        TBinarySplitsPackRef.eq, TExclusiveFeaturesBundleRef.eq] at h1 <;>
      obtain ⟨hB, hE⟩ := h1 <;>
      simp only [TSplitEnsemble.eq, hB, Bool.and_eq_true, decide_eq_true_eq,
        TBinarySplitsPackRef.eq, TExclusiveFeaturesBundleRef.eq] at h2 <;>
      obtain ⟨hB2, hE2⟩ := h2
    · simp [TSplitEnsemble.eq, hA, hB2,
        (hC a.SplitCandidate b.SplitCandidate c.SplitCandidate).2.2 hE hE2]
    · simp [TSplitEnsemble.eq, hA, hB2, hE.trans hE2, TBinarySplitsPackRef.eq]
    · simp [TSplitEnsemble.eq, hA, hB2, hE.trans hE2, TExclusiveFeaturesBundleRef.eq]

theorem TSplitEnsemble_eq_is_equivalence_witness :
    sampleOneFeatureEnsembleA.BinarySplitsPackRef ≠
        sampleOneFeatureEnsembleB.BinarySplitsPackRef ∧
      sampleOneFeatureEnsembleA.eq sampleEnv sampleOneFeatureEnsembleB = true ∧
      sampleOneFeatureEnsembleB.eq sampleEnv sampleOneFeatureEnsembleA = true ∧
      sampleOneFeatureEnsembleA.eq sampleEnv sampleOneFeatureEnsembleA = true :=
  have w := TSplitEnsemble_eq_is_equivalence sampleEnv sampleEnv_ProjectionEq_equivalence.1
    sampleEnv_ProjectionEq_equivalence.2.1 sampleEnv_ProjectionEq_equivalence.2.2
    sampleOneFeatureEnsembleA sampleOneFeatureEnsembleB sampleOneFeatureEnsembleA
  ⟨by decide, by decide, w.2.1 (by decide), w.1⟩

/-! ## Spec derivation and ensemble equality -/

/-- C23: for every bundle list `L` and all `TSplitEnsemble` values `a`, `b`
with `a == b` (and `BundleIdx < |L|` when their type is `ExclusiveBundle`),
both specs are defined and `TSplitEnsembleSpec(a, L) == TSplitEnsembleSpec(b, L)`,
also when `a` and `b` differ in their inactive payload fields. -/
theorem TSplitEnsembleSpec_respects_ensemble_eq {P : Type} (env : THashEnv P)
    (L : List TExclusiveFeaturesBundle) (a b : TSplitEnsemble P)
    (hE : a.eq env b = true)
    (hI : a.Type_ = ESplitEnsembleType.ExclusiveBundle →
      a.ExclusiveFeaturesBundleRef.BundleIdx < L.length) :
    ∃ sa sb : TSplitEnsembleSpec,
      TSplitEnsembleSpec.ofSplitEnsemble a L = some sa ∧
        TSplitEnsembleSpec.ofSplitEnsemble b L = some sb ∧
        sa.eq sb = true ∧ sb.eq sa = true := by
  cases hA : a.Type_ <;>
    simp only [TSplitEnsemble.eq, hA, Bool.and_eq_true, decide_eq_true_eq,
      TBinarySplitsPackRef.eq, TExclusiveFeaturesBundleRef.eq] at hE <;>
    obtain ⟨hB, hP⟩ := hE
  · have hK : a.SplitCandidate.Type_ = b.SplitCandidate.Type_ :=
      ((TSplitCandidate_eq_iff env _ _).1 hP).1
    refine ⟨{ Type_ := ESplitEnsembleType.OneFeature, OneSplitType := a.SplitCandidate.Type_ },
      { Type_ := ESplitEnsembleType.OneFeature, OneSplitType := b.SplitCandidate.Type_ },
      ?_, ?_, ?_, ?_⟩
    · simp [TSplitEnsembleSpec.ofSplitEnsemble, hA]
    · simp [TSplitEnsembleSpec.ofSplitEnsemble, hB]
    · simp [TSplitEnsembleSpec.eq, hK]
    · simp [TSplitEnsembleSpec.eq, hK]
  · refine ⟨{ Type_ := ESplitEnsembleType.BinarySplits, OneSplitType := a.SplitCandidate.Type_ },
      { Type_ := ESplitEnsembleType.BinarySplits, OneSplitType := b.SplitCandidate.Type_ },
      ?_, ?_, ?_, ?_⟩
    · simp [TSplitEnsembleSpec.ofSplitEnsemble, hA]
    · simp [TSplitEnsembleSpec.ofSplitEnsemble, hB]
    · simp [TSplitEnsembleSpec.eq]
    · simp [TSplitEnsembleSpec.eq]
  · have hLt := hI hA
    have hLt2 : b.ExclusiveFeaturesBundleRef.BundleIdx < L.length := hP ▸ hLt
    refine ⟨{ Type_ := ESplitEnsembleType.ExclusiveBundle,
              OneSplitType := a.SplitCandidate.Type_,
              ExclusiveFeaturesBundle := L.get ⟨a.ExclusiveFeaturesBundleRef.BundleIdx, hLt⟩ },
      { Type_ := ESplitEnsembleType.ExclusiveBundle,
        OneSplitType := b.SplitCandidate.Type_,
        ExclusiveFeaturesBundle := L.get ⟨b.ExclusiveFeaturesBundleRef.BundleIdx, hLt2⟩ },
      ?_, ?_, ?_, ?_⟩
    · simp [TSplitEnsembleSpec.ofSplitEnsemble, hA, List.getElem?_eq_getElem hLt]
    · simp [TSplitEnsembleSpec.ofSplitEnsemble, hB, List.getElem?_eq_getElem hLt2]
    · simp [TSplitEnsembleSpec.eq, TExclusiveFeaturesBundle.eq, hP]
    · simp [TSplitEnsembleSpec.eq, TExclusiveFeaturesBundle.eq, hP]

theorem TSplitEnsembleSpec_respects_ensemble_eq_witness :
    sampleBundleEnsembleA.SplitCandidate.Type_ ≠ sampleBundleEnsembleB.SplitCandidate.Type_ ∧
      ∃ sa sb : TSplitEnsembleSpec,
        TSplitEnsembleSpec.ofSplitEnsemble sampleBundleEnsembleA sampleBundleList = some sa ∧
          TSplitEnsembleSpec.ofSplitEnsemble sampleBundleEnsembleB sampleBundleList = some sb ∧
          sa.eq sb = true ∧ sb.eq sa = true :=
  ⟨by decide,
    TSplitEnsembleSpec_respects_ensemble_eq sampleEnv sampleBundleList sampleBundleEnsembleA
      sampleBundleEnsembleB (by decide) (fun _ => by decide)⟩

/-! ## The three views partition the tree -/

end Split
